import Mathlib

/-!
Verification development for the `recipe-transcriber` repository.

The definitions below are a shallow embedding of the two core source files:
  * `src/receipe_transcriber/services/ollama_service.py`
    (schema validation, the structuring retry loop, defensive JSON extraction,
    the text-extraction first pass), and
  * `src/receipe_transcriber/tasks/transcription_tasks.py`
    (the Celery task orchestrating status webhooks, the inference pipeline,
    field normalization and the completion webhook).

Python values flowing through the pipeline are JSON-shaped, so they are
modelled by the `Json` inductive below (dicts as association lists, with
number literals modelled as integers; float literals, `NaN` and `Infinity`
are outside the model and are treated as unparseable).  Effectful steps
(webhook POSTs, inference calls) are modelled by explicit event traces, and
exceptions by `Except`.
-/

namespace RecipeTranscriber

/-- Model of a Python JSON-shaped value (the result of `json.loads`, the
payloads posted to webhooks, and the loosely-typed model output).  Dicts are
association lists in insertion order; numbers are modelled as integers. -/
inductive Json where
  | null : Json
  | bool (b : Bool) : Json
  | num (n : Int) : Json
  | str (s : String) : Json
  | arr (elts : List Json) : Json
  | obj (fields : List (String × Json)) : Json
deriving Repr

mutual

/-- Decidable equality test for `Json` values. -/
def Json.beq : Json → Json → Bool
  | .null, .null => true
  | .bool a, .bool b => a == b
  | .num a, .num b => a == b
  | .str a, .str b => a == b
  | .arr a, .arr b => Json.beqList a b
  | .obj a, .obj b => Json.beqFields a b
  | _, _ => false

/-- Elementwise equality test for lists of `Json` values. -/
def Json.beqList : List Json → List Json → Bool
  | [], [] => true
  | a :: as_, b :: bs => Json.beq a b && Json.beqList as_ bs
  | _, _ => false

/-- Elementwise equality test for dict entry lists. -/
def Json.beqFields : List (String × Json) → List (String × Json) → Bool
  | [], [] => true
  | (ka, va) :: as_, (kb, vb) :: bs =>
      ka == kb && Json.beq va vb && Json.beqFields as_ bs
  | _, _ => false

end

mutual

theorem Json.beq_refl : (j : Json) → Json.beq j j = true
  | .null => rfl
  | .bool b => by simp [Json.beq]
  | .num n => by simp [Json.beq]
  | .str s => by simp [Json.beq]
  | .arr l => by simp [Json.beq]; exact Json.beqList_refl l
  | .obj f => by simp [Json.beq]; exact Json.beqFields_refl f

theorem Json.beqList_refl : (l : List Json) → Json.beqList l l = true
  | [] => rfl
  | a :: as_ => by
      simp [Json.beqList]
      exact ⟨Json.beq_refl a, Json.beqList_refl as_⟩

theorem Json.beqFields_refl : (l : List (String × Json)) → Json.beqFields l l = true
  | [] => rfl
  | (k, v) :: as_ => by
      simp [Json.beqFields]
      exact ⟨Json.beq_refl v, Json.beqFields_refl as_⟩

end

mutual

theorem Json.eq_of_beq : {a b : Json} → Json.beq a b = true → a = b
  | .null, .null, _ => rfl
  | .bool _, .bool _, h => by simp [Json.beq] at h; simp [h]
  | .num _, .num _, h => by simp [Json.beq] at h; simp [h]
  | .str _, .str _, h => by simp [Json.beq] at h; simp [h]
  | .arr a, .arr b, h => by
      simp only [Json.beq] at h
      have := Json.eqList_of_beq h
      simp [this]
  | .obj a, .obj b, h => by
      simp only [Json.beq] at h
      have := Json.eqFields_of_beq h
      simp [this]
  | .null, .bool _, h => by simp [Json.beq] at h
  | .null, .num _, h => by simp [Json.beq] at h
  | .null, .str _, h => by simp [Json.beq] at h
  | .null, .arr _, h => by simp [Json.beq] at h
  | .null, .obj _, h => by simp [Json.beq] at h
  | .bool _, .null, h => by simp [Json.beq] at h
  | .bool _, .num _, h => by simp [Json.beq] at h
  | .bool _, .str _, h => by simp [Json.beq] at h
  | .bool _, .arr _, h => by simp [Json.beq] at h
  | .bool _, .obj _, h => by simp [Json.beq] at h
  | .num _, .null, h => by simp [Json.beq] at h
  | .num _, .bool _, h => by simp [Json.beq] at h
  | .num _, .str _, h => by simp [Json.beq] at h
  | .num _, .arr _, h => by simp [Json.beq] at h
  | .num _, .obj _, h => by simp [Json.beq] at h
  | .str _, .null, h => by simp [Json.beq] at h
  | .str _, .bool _, h => by simp [Json.beq] at h
  | .str _, .num _, h => by simp [Json.beq] at h
  | .str _, .arr _, h => by simp [Json.beq] at h
  | .str _, .obj _, h => by simp [Json.beq] at h
  | .arr _, .null, h => by simp [Json.beq] at h
  | .arr _, .bool _, h => by simp [Json.beq] at h
  | .arr _, .num _, h => by simp [Json.beq] at h
  | .arr _, .str _, h => by simp [Json.beq] at h
  | .arr _, .obj _, h => by simp [Json.beq] at h
  | .obj _, .null, h => by simp [Json.beq] at h
  | .obj _, .bool _, h => by simp [Json.beq] at h
  | .obj _, .num _, h => by simp [Json.beq] at h
  | .obj _, .str _, h => by simp [Json.beq] at h
  | .obj _, .arr _, h => by simp [Json.beq] at h

theorem Json.eqList_of_beq : {a b : List Json} → Json.beqList a b = true → a = b
  | [], [], _ => rfl
  | x :: xs, y :: ys, h => by
      simp only [Json.beqList, Bool.and_eq_true] at h
      have h1 := Json.eq_of_beq h.1
      have h2 := Json.eqList_of_beq h.2
      simp [h1, h2]
  | [], _ :: _, h => by simp [Json.beqList] at h
  | _ :: _, [], h => by simp [Json.beqList] at h

theorem Json.eqFields_of_beq :
    {a b : List (String × Json)} → Json.beqFields a b = true → a = b
  | [], [], _ => rfl
  | (kx, vx) :: xs, (ky, vy) :: ys, h => by
      simp only [Json.beqFields, Bool.and_eq_true] at h
      have h0 : kx = ky := by simpa using h.1.1
      have h1 := Json.eq_of_beq h.1.2
      have h2 := Json.eqFields_of_beq h.2
      simp [h0, h1, h2]
  | [], _ :: _, h => by simp [Json.beqFields] at h
  | _ :: _, [], h => by simp [Json.beqFields] at h

end

instance : DecidableEq Json := fun a b =>
  if h : Json.beq a b = true then
    .isTrue (Json.eq_of_beq h)
  else
    .isFalse (fun he => h (he ▸ Json.beq_refl a))

/-- Python truthiness (`if t:`) of a JSON-shaped value: `None`, `False`, `0`,
the empty string, the empty list and the empty dict are falsy. -/
def pyTruthy : Json → Bool
  | .null => false
  | .bool b => b
  | .num n => n != 0
  | .str s => s != ""
  | .arr l => !l.isEmpty
  | .obj f => !f.isEmpty

/-- Whether a value is a Python `str` (`isinstance(v, str)`). -/
def Json.isStr : Json → Bool
  | .str _ => true
  | _ => false

/-- Whether a value is a Python `list` (`isinstance(v, list)`). -/
def Json.isArr : Json → Bool
  | .arr _ => true
  | _ => false

mutual

/-- Python `repr(v)` for a JSON-shaped value (string escaping inside `repr`
is not modelled). -/
def pyRepr : Json → String
  | .str s => "'" ++ s ++ "'"
  | .num n => toString n
  | .bool true => "True"
  | .bool false => "False"
  | .null => "None"
  | .arr l => "[" ++ String.intercalate ", " (pyReprList l) ++ "]"
  | .obj f => "\x7b" ++ String.intercalate ", " (pyReprFields f) ++ "\x7d"

/-- Pointwise `repr` over list elements. -/
def pyReprList : List Json → List String
  | [] => []
  | v :: rest => pyRepr v :: pyReprList rest

/-- Pointwise `repr` over dict entries. -/
def pyReprFields : List (String × Json) → List String
  | [] => []
  | (k, v) :: rest => ("'" ++ k ++ "': " ++ pyRepr v) :: pyReprFields rest

end

/-- Python `str(v)` for JSON-shaped values: a string is returned as-is, any
other value renders as its `repr` (with which `str` agrees off strings). -/
def pyStr : Json → String
  | .str s => s
  | v => pyRepr v

/-- Characters stripped by Python `str.strip()` (ASCII whitespace; the rarer
Unicode whitespace code points are outside the model). -/
def pySpace (c : Char) : Bool :=
  c = ' ' || c = '\t' || c = '\n' || c = '\r' ||
  c = Char.ofNat 11 || c = Char.ofNat 12

/-- Python `s.strip()` restricted to ASCII whitespace. -/
def pyStrip (s : String) : String :=
  String.mk (((s.data.dropWhile pySpace).reverse.dropWhile pySpace).reverse)

/-- Python `d.get(k)`: the stored value, or `None` when the key is absent. -/
def pyGet (d : List (String × Json)) (k : String) : Json :=
  match d.lookup k with
  | some v => v
  | none => Json.null

/-- Python `d.get(k, default)`: the stored value, or `default` when the key
is absent (a stored `None` is returned as-is, not replaced). -/
def pyGetD (d : List (String × Json)) (k : String) (default : Json) : Json :=
  match d.lookup k with
  | some v => v
  | none => default

/-- Insert a key into a dict, overwriting in place on a duplicate key
(Python dict assignment keeps the original insertion position). -/
def objInsert (k : String) (v : Json) : List (String × Json) → List (String × Json)
  | [] => [(k, v)]
  | (k2, v2) :: rest =>
      if k2 = k then (k, v) :: rest else (k2, v2) :: objInsert k v rest

/-! ### A model of Python `json.loads`

Recursive-descent parser over the character list, with fuel for termination.
It follows the JSON grammar accepted by Python's `json` module: objects,
arrays, double-quoted strings with the standard escapes, integer numerals
(no leading zeros), `true`/`false`/`null`, and JSON whitespace.  Float
literals, `NaN`/`Infinity`, and non-ASCII whitespace are not modelled and
are treated as unparseable. -/

/-- JSON whitespace characters skipped between tokens. -/
def jsonWs (c : Char) : Bool :=
  c = ' ' || c = '\t' || c = '\n' || c = '\r'

/-- Drop leading JSON whitespace. -/
def skipWs : List Char → List Char
  | [] => []
  | c :: cs => if jsonWs c then skipWs cs else c :: cs

/-- Hex digit value, if any (code points: 0-9, A-F, a-f). -/
def hexVal (c : Char) : Option Nat :=
  let n := c.toNat
  if 48 ≤ n && n ≤ 57 then some (n - 48)
  else if 65 ≤ n && n ≤ 70 then some (n - 55)
  else if 97 ≤ n && n ≤ 102 then some (n - 87)
  else none

/-- Parse the body of a JSON string after the opening quote, returning the
decoded characters and the remaining input after the closing quote. -/
def parseStrChars : Nat → List Char → Option (List Char × List Char)
  | 0, _ => none
  | _, [] => none
  | fuel + 1, c :: cs =>
    if c = '"' then some ([], cs)
    else if c = '\\' then
      match cs with
      | [] => none
      | e :: cs2 =>
        if e = 'u' then
          match cs2 with
          | h1 :: h2 :: h3 :: h4 :: cs3 =>
            match hexVal h1, hexVal h2, hexVal h3, hexVal h4 with
            | some a, some b, some c2, some d =>
              (parseStrChars fuel cs3).map
                (fun p => (Char.ofNat (a * 4096 + b * 256 + c2 * 16 + d) :: p.1, p.2))
            | _, _, _, _ => none
          | _ => none
        else
          let esc : Option Char :=
            if e = '"' then some '"'
            else if e = '\\' then some '\\'
            else if e = '/' then some '/'
            else if e = 'b' then some (Char.ofNat 8)
            else if e = 'f' then some (Char.ofNat 12)
            else if e = 'n' then some '\n'
            else if e = 'r' then some '\r'
            else if e = 't' then some '\t'
            else none
          match esc with
          | some ch => (parseStrChars fuel cs2).map (fun p => (ch :: p.1, p.2))
          | none => none
    else if c.toNat < 32 then none
    else (parseStrChars fuel cs).map (fun p => (c :: p.1, p.2))

/-- Parse a JSON string literal (opening quote included). -/
def parseJString (cs : List Char) : Option (String × List Char) :=
  match cs with
  | '"' :: rest =>
    (parseStrChars (rest.length + 1) rest).map (fun p => (String.mk p.1, p.2))
  | _ => none

/-- Decimal digit test. -/
def isDigitCh (c : Char) : Bool := '0' ≤ c && c ≤ '9'

/-- Accumulate leading decimal digits. -/
def takeDigits : List Char → Nat → Nat × List Char
  | [], acc => (acc, [])
  | c :: cs, acc =>
    if isDigitCh c then takeDigits cs (acc * 10 + (c.toNat - '0'.toNat))
    else (acc, c :: cs)

/-- Parse a JSON integer numeral: optional minus sign, then `0` or a nonzero
digit followed by digits.  A following `.`/`e`/`E` would start a float
literal, which is outside the model, so the parse is rejected there. -/
def parseNumber (cs : List Char) : Option (Int × List Char) :=
  let (neg, cs1) :=
    match cs with
    | '-' :: rest => (true, rest)
    | _ => (false, cs)
  match cs1 with
  | [] => none
  | c :: rest =>
    if c = '0' then
      match rest with
      | d :: _ =>
        if isDigitCh d || d = '.' || d = 'e' || d = 'E' then none
        else some ((0 : Int), rest)
      | [] => some ((0 : Int), rest)
    else if isDigitCh c then
      let (n, rest2) := takeDigits rest (c.toNat - '0'.toNat)
      match rest2 with
      | d :: _ =>
        if d = '.' || d = 'e' || d = 'E' then none
        else some (if neg then -(n : Int) else (n : Int), rest2)
      | [] => some (if neg then -(n : Int) else (n : Int), rest2)
    else none

mutual

/-- Parse one JSON value, returning it with the unconsumed remainder. -/
def parseValue : Nat → List Char → Option (Json × List Char)
  | 0, _ => none
  | fuel + 1, cs =>
    match skipWs cs with
    | [] => none
    | c :: rest =>
      if c = '"' then
        (parseJString (c :: rest)).map (fun p => (Json.str p.1, p.2))
      else if c = '{' then
        parseObjBody fuel rest []
      else if c = '[' then
        parseArrBody fuel rest []
      else if c = 't' then
        match rest with
        | 'r' :: 'u' :: 'e' :: rest2 => some (Json.bool true, rest2)
        | _ => none
      else if c = 'f' then
        match rest with
        | 'a' :: 'l' :: 's' :: 'e' :: rest2 => some (Json.bool false, rest2)
        | _ => none
      else if c = 'n' then
        match rest with
        | 'u' :: 'l' :: 'l' :: rest2 => some (Json.null, rest2)
        | _ => none
      else
        (parseNumber (c :: rest)).map (fun p => (Json.num p.1, p.2))

/-- Parse the members of an object after the opening brace, accumulating
entries with last-wins duplicate-key semantics. -/
def parseObjBody (fuel : Nat) (cs : List Char) (acc : List (String × Json)) :
    Option (Json × List Char) :=
  match fuel with
  | 0 => none
  | fuel + 1 =>
    match skipWs cs with
    | '}' :: rest =>
      if acc.isEmpty then some (Json.obj [], rest) else none
    | cs1 =>
      match parseJString cs1 with
      | none => none
      | some (k, cs2) =>
        match skipWs cs2 with
        | ':' :: cs3 =>
          match parseValue fuel cs3 with
          | none => none
          | some (v, cs4) =>
            match skipWs cs4 with
            | ',' :: cs5 => parseObjBody fuel cs5 (objInsert k v acc)
            | '}' :: cs5 => some (Json.obj (objInsert k v acc), cs5)
            | _ => none
        | _ => none

/-- Parse the elements of an array after the opening bracket. -/
def parseArrBody (fuel : Nat) (cs : List Char) (acc : List Json) :
    Option (Json × List Char) :=
  match fuel with
  | 0 => none
  | fuel + 1 =>
    match skipWs cs with
    | ']' :: rest =>
      if acc.isEmpty then some (Json.arr [], rest) else none
    | cs1 =>
      match parseValue fuel cs1 with
      | none => none
      | some (v, cs2) =>
        match skipWs cs2 with
        | ',' :: cs3 => parseArrBody fuel cs3 (acc ++ [v])
        | ']' :: cs3 => some (Json.arr (acc ++ [v]), cs3)
        | _ => none

end

/-- Model of Python `json.loads`: parse one JSON document, requiring the
whole input (up to surrounding whitespace) to be consumed. -/
def parseJson (s : String) : Option Json :=
  match parseValue (s.data.length + 2) s.data with
  | some (v, rest) => if (skipWs rest).isEmpty then some v else none
  | none => none

/-! ### Embedding of `services/ollama_service.py` -/

/-- Embeds `IngredientSchema` (pydantic model, lines 13-17): `item` required
string, `quantity` and `unit` optional strings defaulting to `None`. -/
structure IngredientSchema where
  quantity : Option String
  unit : Option String
  item : String
deriving DecidableEq, Repr

/-- Embeds `RecipeSchema` (pydantic model, lines 20-28): `title` required
string, `ingredients`/`instructions` defaulting to empty lists, four optional
string fields defaulting to `None`. -/
structure RecipeSchema where
  title : String
  ingredients : List IngredientSchema
  instructions : List String
  prep_time : Option String
  cook_time : Option String
  servings : Option String
  notes : Option String
deriving DecidableEq, Repr

/-- Validate an optional-string field of a pydantic model: absent or `null`
becomes `None`, a string is kept, any other value is a validation error. -/
def validateOptStr (f : List (String × Json)) (k : String) : Option (Option String) :=
  match f.lookup k with
  | none => some none
  | some .null => some none
  | some (.str s) => some (some s)
  | some _ => none

/-- Validate one element of the `ingredients` array against
`IngredientSchema`: it must be a dict with a string `item`; extra keys are
ignored (pydantic default config). -/
def validateIngredient : Json → Option IngredientSchema
  | .obj f =>
    match f.lookup "item" with
    | some (.str it) =>
      match validateOptStr f "quantity", validateOptStr f "unit" with
      | some q, some u => some ⟨q, u, it⟩
      | _, _ => none
    | _ => none
  | _ => none

/-- Validate one element of the `instructions` array: must be a string
(pydantic does not coerce other JSON values to `str`). -/
def validateInstruction : Json → Option String
  | .str s => some s
  | _ => none

/-- Embeds `RecipeSchema(**recipe_json)`: validation of a parsed JSON dict
against the recipe schema.  `none` models a raised `ValidationError`.  Extra
keys are ignored; missing `ingredients`/`instructions` default to `[]`;
missing or `null` optional fields default to `None`. -/
def validateRecipe (f : List (String × Json)) : Option RecipeSchema :=
  match f.lookup "title" with
  | some (.str t) =>
    let ing : Option (List IngredientSchema) :=
      match f.lookup "ingredients" with
      | none => some []
      | some (.arr l) => l.mapM validateIngredient
      | some _ => none
    let inst : Option (List String) :=
      match f.lookup "instructions" with
      | none => some []
      | some (.arr l) => l.mapM validateInstruction
      | some _ => none
    match ing, inst, validateOptStr f "prep_time", validateOptStr f "cook_time",
        validateOptStr f "servings", validateOptStr f "notes" with
    | some ig, some il, some p, some c, some sv, some nt =>
      some ⟨t, ig, il, p, c, sv, nt⟩
    | _, _, _, _, _, _ => none
  | _ => none

/-- Render an optional string as a JSON value (`None` becomes `null`). -/
def optStrJson : Option String → Json
  | none => Json.null
  | some s => Json.str s

/-- Embeds `IngredientSchema.model_dump()`: a dict with exactly the keys
`quantity`, `unit`, `item` in declaration order. -/
def IngredientSchema.dump (i : IngredientSchema) : Json :=
  Json.obj [("quantity", optStrJson i.quantity), ("unit", optStrJson i.unit),
            ("item", Json.str i.item)]

/-- Embeds `RecipeSchema.model_dump()`: a dict with exactly the seven schema
keys in declaration order. -/
def RecipeSchema.modelDump (r : RecipeSchema) : Json :=
  Json.obj [("title", Json.str r.title),
            ("ingredients", Json.arr (r.ingredients.map IngredientSchema.dump)),
            ("instructions", Json.arr (r.instructions.map Json.str)),
            ("prep_time", optStrJson r.prep_time),
            ("cook_time", optStrJson r.cook_time),
            ("servings", optStrJson r.servings),
            ("notes", optStrJson r.notes)]

/-! ### Defensive JSON extraction (`_extract_json_from_text`, lines 274-301) -/

/-- Case-insensitive prefix test (the fence regex carries `re.IGNORECASE`). -/
def startsWithCI : List Char → List Char → Bool
  | [], _ => true
  | _ :: _, [] => false
  | p :: ps, c :: cs => p.toLower = c.toLower && startsWithCI ps cs

/-- Exact prefix test. -/
def startsWithChars : List Char → List Char → Bool
  | [], _ => true
  | _ :: _, [] => false
  | p :: ps, c :: cs => p = c && startsWithChars ps cs

/-- Scan for the lazily-matched end of the fenced group: the first `}` after
which, past optional whitespace, three backticks follow.  `acc` holds the
group body so far, reversed.  Mirrors the lazy `\x7b[\s\S]*?\x7d` group of
the fence regex followed by `\s*` and the closing fence. -/
def fenceBody (acc : List Char) : List Char → Option (List Char)
  | [] => none
  | c :: cs =>
    if c = '}' && startsWithChars ['`', '`', '`'] (cs.dropWhile (fun x => pySpace x)) then
      some (('{' :: acc.reverse) ++ ['}'])
    else fenceBody (c :: acc) cs

/-- Leftmost search for the fence pattern: at each position, try to match
three backticks, `json` (case-insensitive), optional whitespace, then a
braced group per `fenceBody`; on failure advance one position (regex search
semantics). -/
def fenceFrom : List Char → Option (List Char)
  | [] => none
  | c :: cs =>
    if startsWithCI ['`', '`', '`', 'j', 's', 'o', 'n'] (c :: cs) then
      match (c :: cs).drop 7 |>.dropWhile (fun x => pySpace x) with
      | '{' :: body =>
        match fenceBody [] body with
        | some g => some g
        | none => fenceFrom cs
      | _ => fenceFrom cs
    else fenceFrom cs

/-- Embeds the fenced-block search
`re.search(r"...json fence...", text, re.IGNORECASE)` of line 280, returning
the braced group when the pattern matches. -/
def fenceCandidate (text : String) : Option String :=
  (fenceFrom text.data).map String.mk

/-- Positions of every `'\x7b'` character in the text, in order — embeds
`[m.start() for m in re.finditer(r'\x5c\x7b', text)]` (line 289). -/
def braceStarts (cs : List Char) : List Nat :=
  (List.range cs.length).filter (fun i => cs.getD i ' ' = '{')

/-- The substring `text[s:e]` as a character list. -/
def sliceChars (cs : List Char) (s e : Nat) : List Char :=
  (cs.take e).drop s

/-- The end positions tried for a given start — embeds
`range(len(text), start_pos, -1)`: longest candidate first. -/
def endCandidates (len s : Nat) : List Nat :=
  (List.range' (s + 1) (len - s)).reverse

/-- For one opening-brace position, try every candidate substring from
longest to shortest and return the first that parses as JSON (the inner
loop of lines 290-299). -/
def tryEnds (cs : List Char) (s : Nat) : Option Json :=
  (endCandidates cs.length s).findSome? (fun e => parseJson (String.mk (sliceChars cs s e)))

/-- The brace-scanning loop of lines 287-299: first opening-brace position
that admits a valid candidate wins. -/
def braceScan (text : String) : Option Json :=
  (braceStarts text.data).findSome? (tryEnds text.data)

/-- Embeds `_extract_json_from_text` (lines 274-301): empty text yields
nothing; a fenced block whose group parses is returned; otherwise the brace
scan runs; `none` models the final `return None`. -/
def extractJsonFromText (text : String) : Option Json :=
  if text = "" then none
  else
    match fenceCandidate text with
    | some g =>
      match parseJson g with
      | some j => some j
      | none => braceScan text
    | none => braceScan text

/-! ### Text extraction first pass (`transcribe_recipe`, lines 68-124) -/

/-- One chat response: the primary `message.content` field (empty string for
an empty/absent content) and the optional `message.thinking` field. -/
structure ChatResp where
  content : String
  thinking : Option String
deriving DecidableEq, Repr

/-- The response-text selection applied after each chat call (lines 111-114
and 216-221): prefer `content`; when `content` is falsy and a truthy
`thinking` field exists, use `thinking`. -/
def selectedText (content : String) (thinking : Option String) : String :=
  if content = "" then
    match thinking with
    | some t => if t = "" then content else t
    | none => content
  else content

/-- Environment of the extraction pass: whether `Path(image_path).exists()`
and the vision model's response fields. -/
structure ExtractEnv where
  fileExists : Bool
  content : String
  thinking : Option String
deriving DecidableEq, Repr

/-- Fatal conditions of the extraction pass. -/
inductive ExtractErr where
  | fileNotFound
  | emptyExtraction
deriving DecidableEq, Repr

/-- Embeds the first pass of `transcribe_recipe` (lines 68-124).  The `Nat`
counts inference calls made before the outcome: the missing-file check
raises before any call; otherwise exactly one chat call happens, and an
empty or whitespace-only selected text raises the empty-extraction error
with no retry. -/
def extractStage (env : ExtractEnv) : Nat × Except ExtractErr String :=
  if env.fileExists = false then (0, Except.error ExtractErr.fileNotFound)
  else
    let t := selectedText env.content env.thinking
    if pyStrip t = "" then (1, Except.error ExtractErr.emptyExtraction)
    else (1, Except.ok t)

/-! ### Structuring retry ladder (`_structure_text_to_recipe`, lines 168-272) -/

/-- One chat message: a role and its content. -/
structure ChatMsg where
  role : String
  content : String
deriving DecidableEq, Repr

/-- The fixed system instruction of line 171. -/
def systemMsgText : String :=
  "You convert recipe text into JSON. Reply with ONLY a single JSON object. No prose, no markdown."

/-- The user message of lines 173-179, embedding the extracted text. -/
def userMsgText (extractedText : String) : String :=
  "Convert the following recipe text into JSON with these fields: " ++
  "title (string), ingredients (array of \x7bquantity, unit, item\x7d), instructions (array of strings), " ++
  "prep_time (string|null), cook_time (string|null), servings (string|null), notes (string|null). " ++
  "Use null for missing fields. Do not add fields. Return ONLY the JSON object.\n\n" ++
  "Text:\n" ++ extractedText

/-- The corrective follow-up message of lines 246-250. -/
def correctiveText : String :=
  "Your last answer was not a single JSON object matching the schema. " ++
  "Reply with ONLY the JSON object. No prose, no markdown, no code fences. " ++
  "Use null for missing fields."

/-- The conversation sent on the first attempt (lines 182-185). -/
def initialMessages (t : String) : List ChatMsg :=
  [⟨"system", systemMsgText⟩, ⟨"user", userMsgText t⟩]

/-- The conversation reassigned after a failed attempt (lines 251-255):
the original two messages plus exactly one corrective message. -/
def correctedMessages (t : String) : List ChatMsg :=
  [⟨"system", systemMsgText⟩, ⟨"user", userMsgText t⟩, ⟨"user", correctiveText⟩]

/-- Outcome of the bounded attempt loop of lines 200-256. -/
inductive AttemptOutcome where
  | success (d : Json)
  | pyTypeError
  | exhausted (lastText : String)
deriving DecidableEq, Repr

/-- The attempt loop (`for attempt in range(3)`).  Arguments: the response
oracle, the extracted text, remaining fuel, the attempt index, the current
conversation and the running `last_response_text`.  Returns the list of
conversations sent (one per chat call) and the outcome.  A response parsing
to a non-dict JSON value makes `RecipeSchema(**recipe_json)` raise an
uncaught `TypeError`, aborting the loop. -/
def attemptLoop (rs : Nat → ChatResp) (t : String) :
    Nat → Nat → List ChatMsg → String → List (List ChatMsg) × AttemptOutcome
  | 0, _, _, last => ([], AttemptOutcome.exhausted last)
  | fuel + 1, k, msgs, _ =>
    let r := rs k
    let rt := selectedText r.content r.thinking
    match parseJson rt with
    | none =>
      let (tr, out) := attemptLoop rs t fuel (k + 1) (correctedMessages t) rt
      (msgs :: tr, out)
    | some (Json.obj f) =>
      match validateRecipe f with
      | some rec => ([msgs], AttemptOutcome.success rec.modelDump)
      | none =>
        let (tr, out) := attemptLoop rs t fuel (k + 1) (correctedMessages t) rt
        (msgs :: tr, out)
    | some _ => ([msgs], AttemptOutcome.pyTypeError)

/-- The exception message raised at line 272. -/
def structuringFailureMsg : String :=
  "Failed to obtain schema-compliant JSON from structuring pass"

/-- The defensive fallback of lines 258-272: extract a JSON block from the
last response text, validate it, and dump it; failures raise the
schema-compliance exception. -/
def defensiveFallback (lastText : String) : Except String Json :=
  match extractJsonFromText lastText with
  | some (Json.obj f) =>
    match validateRecipe f with
    | some rec => Except.ok rec.modelDump
    | none => Except.error structuringFailureMsg
  | some _ => Except.error "TypeError"
  | none => Except.error structuringFailureMsg

/-- Embeds `_structure_text_to_recipe` (lines 168-272): the 3-attempt loop
followed, on exhaustion, by the defensive fallback.  Returns the
conversations sent to the model and the overall result. -/
def structureTextToRecipe (rs : Nat → ChatResp) (t : String) :
    List (List ChatMsg) × Except String Json :=
  let (tr, out) := attemptLoop rs t 3 0 (initialMessages t) ""
  match out with
  | AttemptOutcome.success d => (tr, Except.ok d)
  | AttemptOutcome.pyTypeError => (tr, Except.error "TypeError")
  | AttemptOutcome.exhausted last => (tr, defensiveFallback last)

/-! ### Embedding of `tasks/transcription_tasks.py` -/

/-- Embeds the `cook_time` normalization (lines 103-106): a list value is
joined with a comma-space, each kept element first passed through `str`, and
falsy elements dropped by the `if t` filter of the generator; any other
value (including an absent key, which `d.get` turns into `None`) passes
through unchanged. -/
def normCookTime (d : List (String × Json)) : Json :=
  match pyGet d "cook_time" with
  | Json.arr l => Json.str (String.intercalate ", " ((l.filter pyTruthy).map pyStr))
  | v => v

/-- Embeds the `notes` normalization (lines 108-111): as for `cook_time` but
joined with a newline. -/
def normNotes (d : List (String × Json)) : Json :=
  match pyGet d "notes" with
  | Json.arr l => Json.str (String.intercalate "\n" ((l.filter pyTruthy).map pyStr))
  | v => v

/-- Embeds the `servings` normalization (lines 113-116): converted with
`str` only when the value is truthy and not already a string. -/
def normServings (d : List (String × Json)) : Json :=
  let v := pyGet d "servings"
  if pyTruthy v && !v.isStr then Json.str (pyStr v) else v

/-- Embeds line 118: `recipe_data.get('title', 'Untitled Recipe')`. -/
def titleField (d : List (String × Json)) : Json :=
  pyGetD d "title" (Json.str "Untitled Recipe")

/-- Embeds line 119: `recipe_data.get('prep_time')`. -/
def prepTimeField (d : List (String × Json)) : Json :=
  pyGet d "prep_time"

/-- Embeds line 120: `recipe_data.get('instructions', [])`. -/
def instructionsField (d : List (String × Json)) : Json :=
  pyGetD d "instructions" (Json.arr [])

/-- Embeds line 121: `recipe_data.get('ingredients', [])`. -/
def ingredientsField (d : List (String × Json)) : Json :=
  pyGetD d "ingredients" (Json.arr [])

/-- Observable effects of one task run: a status-webhook POST attempt with
its form fields and transport outcome, the inference pipeline being invoked,
or the completion-webhook POST attempt with its JSON payload and outcome. -/
inductive TaskEvent where
  | statusPost (fields : List (String × String)) (ok : Bool)
  | inference
  | completionPost (payload : List (String × Json)) (ok : Bool)
deriving DecidableEq, Repr

/-- Embeds `publish_status` (lines 45-50): the form body is exactly
`job_id`, `status`, `message`.  The function has no exception handling: a
transport failure propagates to the caller. -/
def publishStatusFields (jobId status message : String) : List (String × String) :=
  [("job_id", jobId), ("status", status), ("message", message)]

/-- Embeds the mock recipe dict returned by `get_recipe_data` when
`SKIP_OLLAMA=1` (lines 20-40). -/
def mockRecipeData : List (String × Json) :=
  [("title", Json.str "Test Recipe - Mock Data"),
   ("prep_time", Json.str "15 minutes"),
   ("cook_time", Json.str "30 minutes"),
   ("servings", Json.str "4"),
   ("notes", Json.str "This is mock data for testing. Set SKIP_OLLAMA=0 to use real Ollama."),
   ("ingredients", Json.arr
     [Json.obj [("quantity", Json.str "2"), ("unit", Json.str "cups"), ("item", Json.str "flour")],
      Json.obj [("quantity", Json.str "1"), ("unit", Json.str "cup"), ("item", Json.str "sugar")],
      Json.obj [("quantity", Json.str "3"), ("unit", Json.null), ("item", Json.str "eggs")]]),
   ("instructions", Json.arr
     [Json.str "Preheat oven to 350Â°F",
      Json.str "Mix dry ingredients together",
      Json.str "Add wet ingredients and stir",
      Json.str "Pour into baking pan",
      Json.str "Bake for 30 minutes until golden"])]

/-- Environment of one task run: the `SKIP_OLLAMA` flag, the transport
outcome of the n-th status POST, the transport outcome of the completion
POST, and the outcome of the real inference pipeline
(`ollama_service.transcribe_recipe`): either a recipe dict or a raised
exception message. -/
structure TaskEnv where
  skipOllama : Bool
  statusPostOk : Nat → Bool
  completionPostOk : Bool
  ollamaResult : Except String (List (String × Json))

/-- Embeds `get_recipe_data` (lines 15-43): the mock dict under
`SKIP_OLLAMA=1`, otherwise the inference pipeline runs (recorded as an
`inference` event) and its outcome is returned or re-raised. -/
def getRecipeData (env : TaskEnv) : List TaskEvent × Except String (List (String × Json)) :=
  if env.skipOllama then ([], Except.ok mockRecipeData)
  else ([TaskEvent.inference], env.ollamaResult)

/-- Embeds the completion POST body of lines 123-132: a JSON object with
exactly the keys `job_id`, `title`, `prep_time`, `cook_time`, `servings`,
`ingredients`, `instructions`, `notes`, the loosely-typed fields passed
through the normalizations above. -/
def buildCompletionPayload (jobId : String) (d : List (String × Json)) : List (String × Json) :=
  [("job_id", Json.str jobId),
   ("title", titleField d),
   ("prep_time", prepTimeField d),
   ("cook_time", normCookTime d),
   ("servings", normServings d),
   ("ingredients", ingredientsField d),
   ("instructions", instructionsField d),
   ("notes", normNotes d)]

/-- Embeds `transcribe_recipe_task` (lines 52-256).  The run posts a
`processing` status, invokes `get_recipe_data`, posts a second `processing`
status, and posts the completion payload.  Any exception — including a
transport failure of either webhook POST — reaches the bare `except` block
of lines 238-256, which only re-raises: the trace ends at the failure point
and no further webhook activity (in particular no `failed` status POST)
occurs. -/
def transcribeRecipeTask (env : TaskEnv) (jobId : String) :
    List TaskEvent × Except String Unit :=
  let ok0 := env.statusPostOk 0
  let s0 := TaskEvent.statusPost
    (publishStatusFields jobId "processing" "Starting transcription...") ok0
  if ok0 = false then ([s0], Except.error "StatusDeliveryFailure")
  else
    let (ev1, rd) := getRecipeData env
    match rd with
    | Except.error e => (s0 :: ev1, Except.error e)
    | Except.ok d =>
      let ok1 := env.statusPostOk 1
      let s1 := TaskEvent.statusPost
        (publishStatusFields jobId "processing" "Parsing response from model...") ok1
      if ok1 = false then (s0 :: ev1 ++ [s1], Except.error "StatusDeliveryFailure")
      else
        let okc := env.completionPostOk
        let cp := TaskEvent.completionPost (buildCompletionPayload jobId d) okc
        if okc = false then (s0 :: ev1 ++ [s1, cp], Except.error "DeliveryFailure")
        else (s0 :: ev1 ++ [s1, cp], Except.ok ())

/-- Whether an event is a status POST carrying `status = failed`. -/
def isFailedStatus : TaskEvent → Bool
  | TaskEvent.statusPost fields _ => fields.lookup "status" == some "failed"
  | _ => false

/-- Whether an event is a completion-payload POST. -/
def isCompletionPost : TaskEvent → Bool
  | TaskEvent.completionPost _ _ => true
  | _ => false

/-- Whether an event is an invocation of the inference pipeline. -/
def isInference : TaskEvent → Bool
  | TaskEvent.inference => true
  | _ => false

/-! ### Helper lemmas -/

/-- Every chat call after the first sends exactly the corrected three-message
conversation, and the number of calls is bounded by the fuel. -/
theorem attemptLoop_trace (rs : Nat → ChatResp) (t : String) :
    ∀ (fuel k : Nat) (msgs : List ChatMsg) (last : String), fuel ≠ 0 →
      ∃ m : Nat, m + 1 ≤ fuel ∧
        (attemptLoop rs t fuel k msgs last).1 =
          msgs :: List.replicate m (correctedMessages t) := by
  intro fuel
  induction fuel with
  | zero => intro k msgs last h; exact absurd rfl h
  | succ n ih =>
    intro k msgs last _
    by_cases hn : n = 0
    · subst hn
      refine ⟨0, by omega, ?_⟩
      simp only [attemptLoop]
      split
      · simp [attemptLoop]
      · split
        · rfl
        · simp [attemptLoop]
      · rfl
    · obtain ⟨m, hm, htr⟩ :=
        ih (k + 1) (correctedMessages t)
          (selectedText (rs k).content (rs k).thinking) hn
      simp only [attemptLoop]
      split
      · exact ⟨m + 1, by omega, by simp [htr, List.replicate_succ]⟩
      · split
        · exact ⟨0, by omega, rfl⟩
        · exact ⟨m + 1, by omega, by simp [htr, List.replicate_succ]⟩
      · exact ⟨0, by omega, rfl⟩

/-- The trace of the full structuring run is the trace of the attempt loop. -/
theorem structureTextToRecipe_fst (rs : Nat → ChatResp) (t : String) :
    (structureTextToRecipe rs t).1 =
      (attemptLoop rs t 3 0 (initialMessages t) "").1 := by
  simp only [structureTextToRecipe]
  rcases h : attemptLoop rs t 3 0 (initialMessages t) "" with ⟨tr, out⟩
  rcases out with d | _ | last <;> rfl

/-- C5: For every structuring run, at most 3 model calls are made before
defensive extraction (1 initial + 2 corrective retries); the first call
sends the original system instruction and user message, and every retry
after the first sends the original instructions plus exactly one corrective
message — corrective messages do not accumulate across retries. -/
theorem structuring_retry_ladder (rs : Nat → ChatResp) (t : String) :
    ((structureTextToRecipe rs t).1).length ≤ 3 ∧
    ((structureTextToRecipe rs t).1).head? = some (initialMessages t) ∧
    ((structureTextToRecipe rs t).1).tail =
      List.replicate (((structureTextToRecipe rs t).1).length - 1)
        (correctedMessages t) := by
  obtain ⟨m, hm, htr⟩ :=
    attemptLoop_trace rs t 3 0 (initialMessages t) "" (by omega)
  rw [structureTextToRecipe_fst, htr]
  refine ⟨?_, rfl, ?_⟩
  · simp; omega
  · simp

/-- Whether a JSON value is a string or `null` (an optional scalar field). -/
def optScalarOk (v : Json) : Bool :=
  v.isStr || v == Json.null

/-- Shape of one dumped ingredient: exactly the keys `quantity`, `unit`,
`item` in order, with `item` a string and the other two string-or-null. -/
def ingredientShapeOk : Json → Bool
  | Json.obj [("quantity", q), ("unit", u), ("item", it)] =>
      optScalarOk q && optScalarOk u && it.isStr
  | _ => false

/-- Shape of a dumped recipe: exactly the seven schema keys in order, with
`title` a string, `ingredients` a list of well-shaped ingredient dicts,
`instructions` a list of strings, and the four optional scalar fields
string-or-null. -/
def recipeShapeOk : Json → Bool
  | Json.obj [("title", tt), ("ingredients", Json.arr ig), ("instructions", Json.arr il),
              ("prep_time", p), ("cook_time", c), ("servings", sv), ("notes", nt)] =>
      tt.isStr && ig.all ingredientShapeOk && il.all Json.isStr &&
      optScalarOk p && optScalarOk c && optScalarOk sv && optScalarOk nt
  | _ => false

/-- An optional string always dumps to a string or `null`. -/
theorem optScalarOk_optStrJson (x : Option String) : optScalarOk (optStrJson x) = true := by
  cases x <;> rfl

/-- Every dumped ingredient is well-shaped. -/
theorem ingredientShapeOk_dump (i : IngredientSchema) :
    ingredientShapeOk i.dump = true := by
  rcases i with ⟨q, u, it⟩
  simp [IngredientSchema.dump, ingredientShapeOk,
        optScalarOk_optStrJson, Json.isStr]

/-- Every dumped recipe is well-shaped. -/
theorem recipeShapeOk_modelDump (r : RecipeSchema) :
    recipeShapeOk r.modelDump = true := by
  rcases r with ⟨tt, ig, il, p, c, sv, nt⟩
  simp [RecipeSchema.modelDump, recipeShapeOk, Json.isStr,
        optScalarOk_optStrJson, List.all_map, Function.comp]
  intro i _
  exact ingredientShapeOk_dump i

/-- A successful attempt inside the retry loop returns a schema model dump. -/
theorem attemptLoop_success_dump (rs : Nat → ChatResp) (t : String) :
    ∀ (fuel k : Nat) (msgs : List ChatMsg) (last : String) (d : Json),
      (attemptLoop rs t fuel k msgs last).2 = AttemptOutcome.success d →
      ∃ rec : RecipeSchema, d = rec.modelDump := by
  intro fuel
  induction fuel with
  | zero =>
    intro k msgs last d h
    simp [attemptLoop] at h
  | succ n ih =>
    intro k msgs last d h
    simp only [attemptLoop] at h
    rcases hp : parseJson (selectedText (rs k).content (rs k).thinking) with _ | j
    · rw [hp] at h
      simp only at h
      rcases hrec : attemptLoop rs t n (k + 1) (correctedMessages t)
          (selectedText (rs k).content (rs k).thinking) with ⟨tr, out⟩
      rw [hrec] at h
      simp only at h
      have := ih (k + 1) (correctedMessages t)
        (selectedText (rs k).content (rs k).thinking) d
      rw [hrec] at this
      exact this h
    · rw [hp] at h
      rcases j with _ | b | mm | s | l | f
      · simp at h
      · simp at h
      · simp at h
      · simp at h
      · simp at h
      · simp only at h
        rcases hv : validateRecipe f with _ | rec
        · rw [hv] at h
          simp only at h
          rcases hrec : attemptLoop rs t n (k + 1) (correctedMessages t)
              (selectedText (rs k).content (rs k).thinking) with ⟨tr, out⟩
          rw [hrec] at h
          simp only at h
          have := ih (k + 1) (correctedMessages t)
            (selectedText (rs k).content (rs k).thinking) d
          rw [hrec] at this
          exact this h
        · rw [hv] at h
          simp only [AttemptOutcome.success.injEq] at h
          exact ⟨rec, h.symm⟩

/-- A successful defensive fallback returns a schema model dump. -/
theorem defensiveFallback_ok_dump (last : String) (d : Json)
    (h : defensiveFallback last = Except.ok d) :
    ∃ rec : RecipeSchema, d = rec.modelDump := by
  simp only [defensiveFallback] at h
  rcases he : extractJsonFromText last with _ | j
  · rw [he] at h; simp at h
  · rw [he] at h
    rcases j with _ | b | mm | s | l | f
    · simp at h
    · simp at h
    · simp at h
    · simp at h
    · simp at h
    · simp only at h
      rcases hv : validateRecipe f with _ | rec
      · rw [hv] at h; simp at h
      · rw [hv] at h
        simp only [Except.ok.injEq] at h
        exact ⟨rec, h.symm⟩

/-- C10: every dict returned by a successful structuring pass — whether from
one of the 3 normal attempts or from defensive extraction — is the dump of a
validated schema model, and therefore has exactly the seven schema keys,
with `title` a string, `ingredients` a list of dicts with keys `quantity`,
`unit`, `item` (`item` a string), `instructions` a list of strings, and the
optional scalar fields string-or-null (in particular `null` when absent from
the model output). -/
theorem structuring_success_shape (rs : Nat → ChatResp) (t : String) (d : Json)
    (h : (structureTextToRecipe rs t).2 = Except.ok d) :
    (∃ rec : RecipeSchema, d = rec.modelDump) ∧ recipeShapeOk d = true := by
  have hdump : ∃ rec : RecipeSchema, d = rec.modelDump := by
    simp only [structureTextToRecipe] at h
    rcases hloop : attemptLoop rs t 3 0 (initialMessages t) "" with ⟨tr, out⟩
    rw [hloop] at h
    rcases out with d2 | _ | last
    · simp only [Except.ok.injEq] at h
      have := attemptLoop_success_dump rs t 3 0 (initialMessages t) "" d2
      rw [hloop] at this
      obtain ⟨rec, hrec⟩ := this rfl
      exact ⟨rec, h ▸ hrec⟩
    · simp at h
    · exact defensiveFallback_ok_dump last d h
  obtain ⟨rec, hrec⟩ := hdump
  exact ⟨⟨rec, hrec⟩, hrec ▸ recipeShapeOk_modelDump rec⟩

/-- Witness for C10 at a concrete run: the model answers with a minimal
valid JSON object on the first attempt. -/
theorem structuring_success_shape_witness :
    (structureTextToRecipe
        (fun _ => ⟨"\x7b\"title\":\"X\",\"ingredients\":[],\"instructions\":[]\x7d", none⟩)
        "txt").2 =
      Except.ok (RecipeSchema.modelDump ⟨"X", [], [], none, none, none, none⟩) ∧
    ((∃ rec : RecipeSchema,
        RecipeSchema.modelDump ⟨"X", [], [], none, none, none, none⟩ = rec.modelDump) ∧
      recipeShapeOk (RecipeSchema.modelDump ⟨"X", [], [], none, none, none, none⟩) = true) :=
  ⟨rfl,
   structuring_success_shape
     (fun _ => ⟨"\x7b\"title\":\"X\",\"ingredients\":[],\"instructions\":[]\x7d", none⟩)
     "txt" (RecipeSchema.modelDump ⟨"X", [], [], none, none, none, none⟩) rfl⟩

/-- C7 (code behavior at the failing claim): for every invocation of the
task — whatever the environment, including runs that immediately fail — the
first webhook emission is a `processing` status POST with message
`Starting transcription...`, attempted before the inference pipeline runs;
the task has no reprocessing-specific first message. -/
theorem first_emission_is_processing (env : TaskEnv) (jobId : String) :
    ((transcribeRecipeTask env jobId).1).head? =
      some (TaskEvent.statusPost
        (publishStatusFields jobId "processing" "Starting transcription...")
        (env.statusPostOk 0)) := by
  simp only [transcribeRecipeTask]
  rcases hg : getRecipeData env with ⟨ev1, rd⟩
  by_cases h0 : env.statusPostOk 0 = false
  · simp [h0]
  · simp only [h0, if_neg, hg]
    rcases rd with e | d
    · simp
    · by_cases h1 : env.statusPostOk 1 = false
      · simp [h1]
      · by_cases hc : env.completionPostOk = false
        · simp [h1, hc]
        · simp [h1, hc]

/-- C1 (code behavior at the failing input): a run whose inference pipeline
raises (here: a missing image file) posts only the initial `processing`
status, re-raises the original error, and posts no `failed` status update at
all — the bare `except` block of lines 238-256 only re-raises. -/
theorem task_no_failed_status_on_error :
    transcribeRecipeTask
        ⟨false, fun _ => true, true,
         Except.error "Image file not found: /missing.jpg"⟩ "7" =
      ([TaskEvent.statusPost
          (publishStatusFields "7" "processing" "Starting transcription...") true,
        TaskEvent.inference],
       Except.error "Image file not found: /missing.jpg") ∧
    ((transcribeRecipeTask
        ⟨false, fun _ => true, true,
         Except.error "Image file not found: /missing.jpg"⟩ "7").1).any
      isFailedStatus = false :=
  ⟨rfl, rfl⟩

/-- C2 counterexample: a run whose inference pipeline would succeed aborts
with a propagated transport error as soon as the first status-webhook POST
fails, and the completion payload is never posted — refuting the claim that
a status transport failure is swallowed and never aborts an
otherwise-successful transcription. -/
theorem status_swallowed_counterexample :
    transcribeRecipeTask
        ⟨false, fun _ => false, true, Except.ok [("title", Json.str "T")]⟩ "7" =
      ([TaskEvent.statusPost
          (publishStatusFields "7" "processing" "Starting transcription...") false],
       Except.error "StatusDeliveryFailure") ∧
    ((transcribeRecipeTask
        ⟨false, fun _ => false, true, Except.ok [("title", Json.str "T")]⟩ "7").1).any
      isCompletionPost = false :=
  ⟨rfl, rfl⟩

/-- C2 amended: a transport failure of a status-webhook POST is neither
caught nor logged by `publish_status`; it propagates to the bare `except`
block and aborts the run, and the completion payload is delivered only in
runs in which both preceding status POSTs succeeded. -/
theorem status_failure_aborts_run (env : TaskEnv) (jobId : String) :
    (env.statusPostOk 0 = false →
      transcribeRecipeTask env jobId =
        ([TaskEvent.statusPost
            (publishStatusFields jobId "processing" "Starting transcription...") false],
         Except.error "StatusDeliveryFailure")) ∧
    (((transcribeRecipeTask env jobId).1).any isCompletionPost = true →
      env.statusPostOk 0 = true ∧ env.statusPostOk 1 = true) := by
  constructor
  · intro h0
    simp [transcribeRecipeTask, h0]
  · intro hc
    simp only [transcribeRecipeTask] at hc
    rcases hg : getRecipeData env with ⟨ev1, rd⟩
    rw [hg] at hc
    by_cases h0 : env.statusPostOk 0 = false
    · rw [h0] at hc
      simp [isCompletionPost] at hc
    · have h0t : env.statusPostOk 0 = true := by
        cases h : env.statusPostOk 0
        · exact absurd h h0
        · rfl
      rw [h0t] at hc
      simp only [Bool.true_eq_false, if_false] at hc
      rcases rd with e | d
      · exfalso
        have hev : (ev1, Except.error (ε := String)
            (α := List (String × Json)) e).2 = Except.error e := rfl
        have : ev1 = [] ∨ ev1 = [TaskEvent.inference] := by
          simp only [getRecipeData] at hg
          by_cases hs : env.skipOllama
          · rw [if_pos hs] at hg
            exact Or.inl (by injection hg with h1 h2; exact h1.symm)
          · rw [if_neg hs] at hg
            exact Or.inr (by injection hg with h1 h2; exact h1.symm)
        rcases this with h | h <;> subst h <;> simp [isFailedStatus, isCompletionPost] at hc
      · by_cases h1 : env.statusPostOk 1 = false
        · rw [h1] at hc
          exfalso
          have : ev1 = [] ∨ ev1 = [TaskEvent.inference] := by
            simp only [getRecipeData] at hg
            by_cases hs : env.skipOllama
            · rw [if_pos hs] at hg
              exact Or.inl (by injection hg with hh1 hh2; exact hh1.symm)
            · rw [if_neg hs] at hg
              exact Or.inr (by injection hg with hh1 hh2; exact hh1.symm)
          rcases this with h | h <;> subst h <;>
            simp [isCompletionPost] at hc
        · have h1t : env.statusPostOk 1 = true := by
            cases h : env.statusPostOk 1
            · exact absurd h h1
            · rfl
          exact ⟨h0t, h1t⟩

/-- Witness for C2 amended: the first status POST failing at a concrete
environment yields exactly the aborted one-event run. -/
theorem status_failure_aborts_run_witness :
    transcribeRecipeTask
        ⟨false, fun _ => false, true, Except.ok [("title", Json.str "T")]⟩ "9" =
      ([TaskEvent.statusPost
          (publishStatusFields "9" "processing" "Starting transcription...") false],
       Except.error "StatusDeliveryFailure") :=
  (status_failure_aborts_run
    ⟨false, fun _ => false, true, Except.ok [("title", Json.str "T")]⟩ "9").1 rfl

/-- C3 (code behavior at the failing claim): at a concrete successful run,
every status POST is form-encoded with exactly the fields `job_id`,
`status`, `message` — not `external_recipe_id` — and the completion POST
body has exactly the keys `job_id`, `title`, `prep_time`, `cook_time`,
`servings`, `ingredients`, `instructions`, `notes`: no `external_recipe_id`
and no `image_path`, although the receiving endpoints in
`routes/webhooks.py` read `external_recipe_id` from both channels and
`image_path` from the completion body. -/
theorem webhook_payload_field_names :
    ((transcribeRecipeTask
        ⟨false, fun _ => true, true, Except.ok [("title", Json.str "T")]⟩ "7").1).all
      (fun e =>
        match e with
        | TaskEvent.statusPost fields _ =>
          fields.map Prod.fst == ["job_id", "status", "message"]
        | TaskEvent.completionPost payload _ =>
          payload.map Prod.fst ==
            ["job_id", "title", "prep_time", "cook_time", "servings",
             "ingredients", "instructions", "notes"]
        | TaskEvent.inference => true) = true ∧
    ((transcribeRecipeTask
        ⟨false, fun _ => true, true, Except.ok [("title", Json.str "T")]⟩ "7").1).any
      (fun e =>
        match e with
        | TaskEvent.statusPost fields _ => fields.map Prod.fst |>.contains "external_recipe_id"
        | TaskEvent.completionPost payload _ =>
          (payload.map Prod.fst |>.contains "external_recipe_id") ||
          (payload.map Prod.fst |>.contains "image_path")
        | TaskEvent.inference => false) = false :=
  ⟨rfl, rfl⟩

/-- C6 counterexample: with a whitespace-only (hence truthy) `content` and a
non-blank `thinking`, the extraction pass raises the empty-extraction error
even though the secondary field is not blank — refuting that the failure
happens exactly when both fields are blank or whitespace-only.  The fallback
is keyed on Python truthiness of `content`, not on whitespace-only-ness. -/
theorem extraction_empty_counterexample :
    extractStage ⟨true, "  ", some "Recipe: cake"⟩ =
      (1, Except.error ExtractErr.emptyExtraction) ∧
    pyStrip "Recipe: cake" = "Recipe: cake" ∧
    ("Recipe: cake" : String) ≠ "" :=
  ⟨rfl, rfl, by decide⟩

/-- C6 amended: a missing image file fails with the not-found condition
before any inference call; otherwise exactly one inference call is made, the
extracted text is `content`, falling back to `thinking` only when `content`
is the empty string and `thinking` is present and nonempty, and the pass
fails with the empty-extraction error — with no retry — exactly when the
text so selected is empty or whitespace-only. -/
theorem extraction_empty_iff_selected_blank (env : ExtractEnv) :
    (env.fileExists = false →
      extractStage env = (0, Except.error ExtractErr.fileNotFound)) ∧
    (env.fileExists = true →
      (extractStage env = (1, Except.error ExtractErr.emptyExtraction) ↔
        pyStrip (selectedText env.content env.thinking) = "") ∧
      (pyStrip (selectedText env.content env.thinking) ≠ "" →
        extractStage env = (1, Except.ok (selectedText env.content env.thinking)))) := by
  refine ⟨fun h0 => by simp [extractStage, h0], fun h1 => ?_⟩
  constructor
  · constructor
    · intro h
      simp only [extractStage, h1] at h
      by_cases hs : pyStrip (selectedText env.content env.thinking) = ""
      · exact hs
      · rw [if_neg hs] at h
        simp at h
    · intro hs
      simp [extractStage, h1, hs]
  · intro hs
    simp [extractStage, h1, hs]

/-- Witness for C6 amended at concrete environments: a missing file fails
before any call, and a run with empty `content` falls back to `thinking`. -/
theorem extraction_empty_iff_selected_blank_witness :
    extractStage ⟨false, "text", none⟩ = (0, Except.error ExtractErr.fileNotFound) ∧
    extractStage ⟨true, "", some "thought"⟩ = (1, Except.ok "thought") :=
  ⟨(extraction_empty_iff_selected_blank ⟨false, "text", none⟩).1 rfl,
   ((extraction_empty_iff_selected_blank ⟨true, "", some "thought"⟩).2 rfl).2
     (by decide)⟩

/-- C8 counterexample: `servings = 0` is present and not a string yet passes
through unconverted (the code requires truthiness before converting), and a
`cook_time` list containing an empty string is not joined verbatim — the
falsy element is dropped by the generator filter. -/
theorem normalize_counterexample :
    normServings [("servings", Json.num 0)] = Json.num 0 ∧
    Json.num 0 ≠ Json.str "0" ∧
    normCookTime [("cook_time", Json.arr [Json.str "a", Json.str ""])] = Json.str "a" ∧
    Json.str "a" ≠ Json.str "a, " :=
  ⟨by decide, by decide, by decide, by decide⟩

/-- C8 amended: normalization is total with no failure path; a `cook_time`
list is joined with a comma-space and a `notes` list with a newline after
dropping falsy elements and converting each kept element with `str`; a
`servings` value is converted with `str` only when it is present, truthy and
not already a string; a missing `title` defaults to the placeholder; missing
`ingredients`/`instructions` keys default to empty sequences; all other
values pass through unchanged. -/
theorem normalize_field_rules (d : List (String × Json)) :
    (∀ l, d.lookup "cook_time" = some (Json.arr l) →
      normCookTime d =
        Json.str (String.intercalate ", " ((l.filter pyTruthy).map pyStr))) ∧
    (∀ v, d.lookup "cook_time" = some v → v.isArr = false → normCookTime d = v) ∧
    (d.lookup "cook_time" = none → normCookTime d = Json.null) ∧
    (∀ l, d.lookup "notes" = some (Json.arr l) →
      normNotes d =
        Json.str (String.intercalate "\n" ((l.filter pyTruthy).map pyStr))) ∧
    (∀ v, d.lookup "notes" = some v → v.isArr = false → normNotes d = v) ∧
    (d.lookup "notes" = none → normNotes d = Json.null) ∧
    (∀ v, d.lookup "servings" = some v → pyTruthy v = true → v.isStr = false →
      normServings d = Json.str (pyStr v)) ∧
    (∀ v, d.lookup "servings" = some v → (pyTruthy v = false ∨ v.isStr = true) →
      normServings d = v) ∧
    (d.lookup "servings" = none → normServings d = Json.null) ∧
    (d.lookup "title" = none → titleField d = Json.str "Untitled Recipe") ∧
    (∀ v, d.lookup "title" = some v → titleField d = v) ∧
    (d.lookup "ingredients" = none → ingredientsField d = Json.arr []) ∧
    (∀ v, d.lookup "ingredients" = some v → ingredientsField d = v) ∧
    (d.lookup "instructions" = none → instructionsField d = Json.arr []) ∧
    (∀ v, d.lookup "instructions" = some v → instructionsField d = v) ∧
    (d.lookup "prep_time" = none → prepTimeField d = Json.null) ∧
    (∀ v, d.lookup "prep_time" = some v → prepTimeField d = v) := by
  refine ⟨?_, ?_, ?_, ?_, ?_, ?_, ?_, ?_, ?_, ?_, ?_, ?_, ?_, ?_, ?_, ?_, ?_⟩
  · intro l h; simp [normCookTime, pyGet, h]
  · intro v h hv
    simp only [normCookTime, pyGet, h]
    rcases v with _ | b | n | s | l | f <;> first | rfl | simp [Json.isArr] at hv
  · intro h; simp [normCookTime, pyGet, h]
  · intro l h; simp [normNotes, pyGet, h]
  · intro v h hv
    simp only [normNotes, pyGet, h]
    rcases v with _ | b | n | s | l | f <;> first | rfl | simp [Json.isArr] at hv
  · intro h; simp [normNotes, pyGet, h]
  · intro v h ht hs; simp [normServings, pyGet, h, ht, hs]
  · intro v h hor
    rcases hor with ht | hs
    · simp [normServings, pyGet, h, ht]
    · simp [normServings, pyGet, h, hs]
  · intro h; simp [normServings, pyGet, h, pyTruthy]
  · intro h; simp [titleField, pyGetD, h]
  · intro v h; simp [titleField, pyGetD, h]
  · intro h; simp [ingredientsField, pyGetD, h]
  · intro v h; simp [ingredientsField, pyGetD, h]
  · intro h; simp [instructionsField, pyGetD, h]
  · intro v h; simp [instructionsField, pyGetD, h]
  · intro h; simp [prepTimeField, pyGet, h]
  · intro v h; simp [prepTimeField, pyGet, h]

/-- Witness for C8 amended at a concrete dict exercising the join, the
truthy `servings` conversion and the `title` default. -/
theorem normalize_field_rules_witness :
    normCookTime [("cook_time", Json.arr [Json.str "30 min", Json.str "10 min"])] =
      Json.str "30 min, 10 min" ∧
    normServings [("servings", Json.num 4)] = Json.str "4" ∧
    titleField [("servings", Json.num 4)] = Json.str "Untitled Recipe" := by
  refine ⟨?_, ?_, ?_⟩
  · have := (normalize_field_rules
      [("cook_time", Json.arr [Json.str "30 min", Json.str "10 min"])]).1
      [Json.str "30 min", Json.str "10 min"] rfl
    rw [this]
    decide
  · have := (normalize_field_rules [("servings", Json.num 4)]).2.2.2.2.2.2.1
      (Json.num 4) rfl rfl rfl
    rw [this]
    decide
  · exact (normalize_field_rules [("servings", Json.num 4)]).2.2.2.2.2.2.2.2.2.1 rfl

/-- C9 counterexample: a length-1 `cook_time` list does not pass through
unchanged — it is joined into its single element, changing the value from a
list to a string. -/
theorem normalize_length_one_counterexample :
    normCookTime [("cook_time", Json.arr [Json.str "30 minutes"])] =
      Json.str "30 minutes" ∧
    Json.str "30 minutes" ≠ Json.arr [Json.str "30 minutes"] :=
  ⟨by decide, by decide⟩

/-- C9 amended: `cook_time` and `notes` lists whose elements are nonempty
strings normalize deterministically to the joined string (comma-space and
newline respectively) at every length — in particular a length-1 list
becomes its single element as a string rather than passing through — while
scalar (non-list) inputs pass through the normalizer unchanged. -/
theorem normalize_join_lengths (d : List (String × Json)) :
    (∀ l, d.lookup "cook_time" = some (Json.arr l) →
      l.all (fun v => v.isStr && pyTruthy v) = true →
      normCookTime d = Json.str (String.intercalate ", " (l.map pyStr))) ∧
    (∀ s, d.lookup "cook_time" = some (Json.arr [Json.str s]) → s ≠ "" →
      normCookTime d = Json.str s) ∧
    (∀ v, d.lookup "cook_time" = some v → v.isArr = false → normCookTime d = v) ∧
    (∀ l, d.lookup "notes" = some (Json.arr l) →
      l.all (fun v => v.isStr && pyTruthy v) = true →
      normNotes d = Json.str (String.intercalate "\n" (l.map pyStr))) ∧
    (∀ s, d.lookup "notes" = some (Json.arr [Json.str s]) → s ≠ "" →
      normNotes d = Json.str s) ∧
    (∀ v, d.lookup "notes" = some v → v.isArr = false → normNotes d = v) := by
  have hfilt : ∀ l : List Json, l.all (fun v => v.isStr && pyTruthy v) = true →
      l.filter pyTruthy = l := by
    intro l hl
    rw [List.filter_eq_self]
    intro a ha
    have := List.all_eq_true.mp hl a ha
    simp only [Bool.and_eq_true] at this
    exact this.2
  refine ⟨?_, ?_, ?_, ?_, ?_, ?_⟩
  · intro l h hl
    simp [normCookTime, pyGet, h, hfilt l hl]
  · intro s h hs
    have ht : pyTruthy (Json.str s) = true := by simp [pyTruthy, hs]
    have hone : List.filter pyTruthy [Json.str s] = [Json.str s] := by
      simp [ht]
    simp only [normCookTime, pyGet, h, hone, List.map]
    rfl
  · intro v h hv
    simp only [normCookTime, pyGet, h]
    rcases v with _ | b | n | s | l | f <;> first | rfl | simp [Json.isArr] at hv
  · intro l h hl
    simp [normNotes, pyGet, h, hfilt l hl]
  · intro s h hs
    have ht : pyTruthy (Json.str s) = true := by simp [pyTruthy, hs]
    have hone : List.filter pyTruthy [Json.str s] = [Json.str s] := by
      simp [ht]
    simp only [normNotes, pyGet, h, hone, List.map]
    rfl
  · intro v h hv
    simp only [normNotes, pyGet, h]
    rcases v with _ | b | n | s | l | f <;> first | rfl | simp [Json.isArr] at hv

/-- Witness for C9 amended: a two-element join, a one-element collapse and a
scalar pass-through at concrete inputs. -/
theorem normalize_join_lengths_witness :
    normCookTime [("cook_time", Json.arr [Json.str "a", Json.str "b"])] =
      Json.str "a, b" ∧
    normNotes [("notes", Json.arr [Json.str "only"])] = Json.str "only" ∧
    normCookTime [("cook_time", Json.str "1 hour")] = Json.str "1 hour" := by
  refine ⟨?_, ?_, ?_⟩
  · have := (normalize_join_lengths
      [("cook_time", Json.arr [Json.str "a", Json.str "b"])]).1
      [Json.str "a", Json.str "b"] rfl (by decide)
    rw [this]
    decide
  · exact (normalize_join_lengths [("notes", Json.arr [Json.str "only"])]).2.2.2.2.1
      "only" rfl (by decide)
  · exact (normalize_join_lengths [("cook_time", Json.str "1 hour")]).2.2.1
      (Json.str "1 hour") rfl rfl

/-- First-hit characterization of `findSome?` over a list that is pairwise
ordered by an asymmetric relation: the hit admits no earlier hit. -/
theorem findSome_first {α β : Type} {R : α → α → Prop} {f : α → Option β} {v : β} :
    ∀ {l : List α}, (∀ a b, R a b → ¬ R b a) → l.Pairwise R →
      l.findSome? f = some v →
      ∃ i, i ∈ l ∧ f i = some v ∧ ∀ j ∈ l, R j i → f j = none := by
  intro l hasym hl h
  induction l with
  | nil => simp [List.findSome?] at h
  | cons a l ih =>
    obtain ⟨hal, hpl⟩ := List.pairwise_cons.mp hl
    rw [List.findSome?_cons] at h
    cases hfa : f a with
    | some b =>
      rw [hfa] at h
      refine ⟨a, List.mem_cons_self a l, by rw [hfa]; exact h, ?_⟩
      intro j hj hR
      rcases List.mem_cons.mp hj with rfl | hj
      · exact absurd hR (hasym j j hR)
      · exact absurd hR (hasym a j (hal j hj))
    | none =>
      rw [hfa] at h
      obtain ⟨i, hil, hfi, hmin⟩ := ih hpl h
      refine ⟨i, List.mem_cons_of_mem a hil, hfi, ?_⟩
      intro j hj hR
      rcases List.mem_cons.mp hj with rfl | hj
      · exact hfa
      · exact hmin j hj hR

/-- The end-candidate list for one start is strictly descending. -/
theorem endCandidates_pairwise (len s : Nat) :
    (endCandidates len s).Pairwise (· > ·) := by
  unfold endCandidates
  rw [List.pairwise_reverse]
  exact List.pairwise_lt_range' _ _

/-- The brace-start list is strictly ascending. -/
theorem braceStarts_pairwise (cs : List Char) :
    (braceStarts cs).Pairwise (· < ·) :=
  (List.pairwise_lt_range _).filter _

/-- C4: defensive extraction first searches for a fenced JSON code block and
returns its parsed contents; failing that it scans every opening-brace
position in order, trying candidate substrings from longest to shortest and
returning the first that parses as valid JSON — so the returned value comes
from the earliest brace position admitting any valid candidate (no earlier
position had one) and from the longest valid candidate at that position; a
recovered dict passing schema validation is returned as the schema dump,
and otherwise the structuring-failure exception is raised; the fallback
runs exactly when the 3-attempt loop is exhausted. -/
theorem defensive_extraction_first_valid :
    (∀ text g j, fenceCandidate text = some g → parseJson g = some j →
      extractJsonFromText text = some j) ∧
    (∀ text, fenceCandidate text = none →
      extractJsonFromText text = braceScan text) ∧
    (∀ text g, fenceCandidate text = some g → parseJson g = none →
      extractJsonFromText text = braceScan text) ∧
    (∀ text v, braceScan text = some v →
      ∃ s, s ∈ braceStarts text.data ∧ tryEnds text.data s = some v ∧
        ∀ s2 ∈ braceStarts text.data, s2 < s → tryEnds text.data s2 = none) ∧
    (∀ cs s v, tryEnds cs s = some v →
      ∃ e, e ∈ endCandidates cs.length s ∧
        parseJson (String.mk (sliceChars cs s e)) = some v ∧
        ∀ e2 ∈ endCandidates cs.length s, e2 > e →
          parseJson (String.mk (sliceChars cs s e2)) = none) ∧
    (∀ text, braceScan text = none →
      ∀ s ∈ braceStarts text.data, tryEnds text.data s = none) ∧
    (∀ last f rec, extractJsonFromText last = some (Json.obj f) →
      validateRecipe f = some rec →
      defensiveFallback last = Except.ok rec.modelDump) ∧
    (∀ last f, extractJsonFromText last = some (Json.obj f) →
      validateRecipe f = none →
      defensiveFallback last = Except.error structuringFailureMsg) ∧
    (∀ last, extractJsonFromText last = none →
      defensiveFallback last = Except.error structuringFailureMsg) ∧
    (∀ rs t last,
      (attemptLoop rs t 3 0 (initialMessages t) "").2 = AttemptOutcome.exhausted last →
      (structureTextToRecipe rs t).2 = defensiveFallback last) := by
  refine ⟨?_, ?_, ?_, ?_, ?_, ?_, ?_, ?_, ?_, ?_⟩
  · intro text g j hf hp
    by_cases ht : text = ""
    · subst ht
      simp [fenceCandidate, fenceFrom] at hf
    · simp [extractJsonFromText, ht, hf, hp]
  · intro text hf
    by_cases ht : text = ""
    · subst ht
      simp [extractJsonFromText, braceScan, braceStarts]
    · simp [extractJsonFromText, ht, hf]
  · intro text g hf hp
    by_cases ht : text = ""
    · subst ht
      simp [fenceCandidate, fenceFrom] at hf
    · simp [extractJsonFromText, ht, hf, hp]
  · intro text v h
    exact findSome_first (fun a b h1 h2 => by omega) (braceStarts_pairwise _) h
  · intro cs s v h
    exact findSome_first (fun a b h1 h2 => by omega) (endCandidates_pairwise _ _) h
  · intro text h
    exact (List.findSome?_eq_none_iff).mp h
  · intro last f rec he hv
    simp [defensiveFallback, he, hv]
  · intro last f he hv
    simp [defensiveFallback, he, hv]
  · intro last he
    simp [defensiveFallback, he]
  · intro rs t last h
    simp only [structureTextToRecipe]
    rcases hl : attemptLoop rs t 3 0 (initialMessages t) "" with ⟨tr, out⟩
    rw [hl] at h
    simp only at h
    cases out with
    | success d => simp at h
    | pyTypeError => simp at h
    | exhausted l2 =>
      simp only [AttemptOutcome.exhausted.injEq] at h
      subst h
      rfl

/-- Witness for C4 at concrete inputs: a fenced block is parsed directly; a
fence-free text falls through to the brace scan, whose hit is characterized
by the earliest valid brace position; an exhausted loop hands its last
response text to the defensive fallback. -/
theorem defensive_extraction_first_valid_witness :
    extractJsonFromText "```json \x7b\"a\":1\x7d ```" =
      some (Json.obj [("a", Json.num 1)]) ∧
    extractJsonFromText "x\x7b\"a\":1\x7d" = braceScan "x\x7b\"a\":1\x7d" ∧
    (∃ s, s ∈ braceStarts ("x\x7b\"a\":1\x7d").data ∧
      tryEnds ("x\x7b\"a\":1\x7d").data s = some (Json.obj [("a", Json.num 1)]) ∧
      ∀ s2 ∈ braceStarts ("x\x7b\"a\":1\x7d").data, s2 < s →
        tryEnds ("x\x7b\"a\":1\x7d").data s2 = none) ∧
    (structureTextToRecipe (fun _ => ⟨"prose", none⟩) "t").2 =
      defensiveFallback "prose" :=
  ⟨defensive_extraction_first_valid.1 _ "\x7b\"a\":1\x7d" _ rfl rfl,
   defensive_extraction_first_valid.2.1 _ rfl,
   defensive_extraction_first_valid.2.2.2.1 _ _ rfl,
   defensive_extraction_first_valid.2.2.2.2.2.2.2.2.2 _ "t" "prose" rfl⟩

end RecipeTranscriber
